import Mathlib

/-!
# Verification of the quizmd question-generation and answer-evaluation core

Shallow embedding of the Python sources `evaluator.py`, `question_generator.py`
and `quiz_runner.py`.  Python strings are modelled as `List Char` (ASCII model
of the character classes used by the code), Python floats as `ℚ`, Python sets
as duplicate-free lists, exceptions as `Except`/`Option`, and the external
NLTK tokenizer/tagger as an explicit oracle parameter.
-/

namespace QuizMD

/-- Python strings are modelled as lists of characters. -/
abbrev Str := List Char

/-- The whitespace characters recognised by Python `str.split()` / `str.strip()`
and by the regex class `\s` (ASCII model). -/
def pySpace (c : Char) : Bool :=
  c = ' ' || c = '\t' || c = '\n' || c = '\r' || c = '\x0b' || c = '\x0c'

/-- ASCII model of the Python regex class `\w` (used by `re.sub(r'[^\w\s]', ...)`). -/
def wordChar (c : Char) : Bool := c.isAlphanum || c = '_'

/-- Characters kept by `_normalize_text`'s punctuation removal. -/
def keepChar (c : Char) : Bool := wordChar c || pySpace c

/-- Python `str.lower()` (ASCII model). -/
def lowerStr (s : Str) : Str := s.map Char.toLower

/-- Drop trailing characters satisfying `p`. -/
def dropEndWhile (p : Char → Bool) (s : Str) : Str :=
  (s.reverse.dropWhile p).reverse

/-- Python `str.strip()` with no argument. -/
def pyStrip (s : Str) : Str := dropEndWhile pySpace (s.dropWhile pySpace)

/-- Python `str.rstrip(chars)`: drop trailing characters belonging to `cs`. -/
def pyRstrip (cs : List Char) (s : Str) : Str :=
  dropEndWhile (fun c => cs.contains c) s

/-- Fuel-based worker for `splitWs` (structural recursion on the fuel keeps
the definition kernel-reducible; the fuel always exceeds the input length). -/
def splitWsF : Nat → Str → List Str
  | 0, _ => []
  | fuel + 1, s =>
    match s with
    | [] => []
    | c :: cs =>
      if pySpace c then splitWsF fuel cs
      else (c :: cs.takeWhile (fun d => !pySpace d)) ::
           splitWsF fuel (cs.dropWhile (fun d => !pySpace d))

/-- Python `str.split()` with no argument: split on runs of whitespace,
discarding empty pieces. -/
def splitWs (s : Str) : List Str := splitWsF (s.length + 1) s

theorem splitWsF_succ (fuel : Nat) (c : Char) (cs : Str) :
    splitWsF (fuel + 1) (c :: cs) =
      if pySpace c then splitWsF fuel cs
      else (c :: cs.takeWhile (fun d => !pySpace d)) ::
           splitWsF fuel (cs.dropWhile (fun d => !pySpace d)) := rfl

theorem splitWsF_congr : ∀ (f1 f2 : Nat) (s : Str),
    s.length < f1 → s.length < f2 → splitWsF f1 s = splitWsF f2 s := by
  intro f1
  induction f1 with
  | zero => intro f2 s h1 _; omega
  | succ f1 ih =>
    intro f2 s h1 h2
    cases f2 with
    | zero => omega
    | succ f2 =>
      cases s with
      | nil => rfl
      | cons c cs =>
        rw [splitWsF_succ, splitWsF_succ]
        simp only [List.length_cons] at h1 h2
        by_cases hc : pySpace c
        · rw [if_pos hc, if_pos hc]
          exact ih f2 cs (by omega) (by omega)
        · rw [if_neg hc, if_neg hc]
          have hd := (List.dropWhile_sublist (l := cs) (fun d => !pySpace d)).length_le
          rw [ih f2 (cs.dropWhile (fun d => !pySpace d)) (by omega) (by omega)]

theorem splitWs_cons (c : Char) (cs : Str) :
    splitWs (c :: cs) =
      if pySpace c then splitWs cs
      else (c :: cs.takeWhile (fun d => !pySpace d)) ::
           splitWs (cs.dropWhile (fun d => !pySpace d)) := by
  show splitWsF (cs.length + 1 + 1) (c :: cs) = _
  rw [splitWsF_succ]
  by_cases hc : pySpace c
  · rw [if_pos hc, if_pos hc]
    rfl
  · rw [if_neg hc, if_neg hc]
    have hd := (List.dropWhile_sublist (l := cs) (fun d => !pySpace d)).length_le
    rw [splitWsF_congr (cs.length + 1)
      ((cs.dropWhile (fun d => !pySpace d)).length + 1)
      (cs.dropWhile (fun d => !pySpace d)) (by omega) (by omega)]
    rfl

/-- `' '.join(ws)` for a list of words. -/
def joinSp : List Str → Str
  | [] => []
  | [w] => w
  | w :: ws => w ++ ' ' :: joinSp ws

/-- `' '.join(text.split())`: collapse whitespace runs to single spaces. -/
def collapseWs (s : Str) : Str := joinSp (splitWs s)

/-- `AnswerEvaluator._normalize_text` (`evaluator.py` lines 23-39): lowercase,
remove every character that is not alphanumeric/underscore/whitespace,
collapse whitespace, strip. -/
def normalizeText (s : Str) : Str :=
  pyStrip (collapseWs ((lowerStr s).filter keepChar))

/-- Python substring test `needle in hay`. -/
def containsSub (hay needle : Str) : Bool :=
  match hay with
  | [] => needle.isEmpty
  | _ :: t => needle.isPrefixOf hay || containsSub t needle

/-- Length of the common prefix of two strings on which they agree character
by character. -/
def matchLen : Str → Str → Nat
  | a :: as, b :: bs => if a = b then matchLen as bs + 1 else 0
  | _, _ => 0

/-- The longest matching block between `a` and `b` as `(i, j, size)`, the
lexicographically first maximal block, as computed by
`difflib.SequenceMatcher.find_longest_match` with an empty junk set. -/
def findLongest (a b : Str) : Nat × Nat × Nat :=
  (List.range a.length).foldl (fun best i =>
    (List.range b.length).foldl (fun best j =>
      let k := matchLen (a.drop i) (b.drop j)
      if k > best.2.2 then (i, j, k) else best) best) (0, 0, 0)

/-- Total size of the matching blocks of `difflib.SequenceMatcher`: recursively
split around the longest matching block.  `fuel` only serves termination; it is
always called with fuel exceeding the recursion depth. -/
def totalMatchesAux : Nat → Str → Str → Nat
  | 0, _, _ => 0
  | fuel + 1, a, b =>
    let m := findLongest a b
    if m.2.2 = 0 then 0
    else totalMatchesAux fuel (a.take m.1) (b.take m.2.1) + m.2.2 +
         totalMatchesAux fuel (a.drop (m.1 + m.2.2)) (b.drop (m.2.1 + m.2.2))

def totalMatches (a b : Str) : Nat := totalMatchesAux (a.length + 1) a b

/-- `difflib.SequenceMatcher(None, a, b).ratio()`: twice the number of matching
characters over the total length (1 when both strings are empty).  The autojunk
heuristic never fires for second arguments shorter than 200 characters, which
covers every use in this development; it is not modelled. -/
def seqSimilarity (a b : Str) : ℚ :=
  if a.length + b.length = 0 then 1
  else 2 * (totalMatches a b : ℚ) / ((a.length : ℚ) + (b.length : ℚ))

/-- The stop-word set of `AnswerEvaluator._extract_keywords`. -/
def stopWords : List Str :=
  ["the", "a", "an", "and", "or", "but", "in", "on", "at", "to", "for",
   "of", "with", "by", "is", "are", "was", "were", "be", "been", "being",
   "have", "has", "had", "do", "does", "did", "will", "would", "should",
   "could", "may", "might", "must", "can", "this", "that", "these",
   "those"].map String.toList

/-- `AnswerEvaluator._extract_keywords`: normalized words of length > 2 that
are not stop words, as a duplicate-free list (Python builds a set). -/
def extractKeywords (s : Str) : List Str :=
  ((splitWs (normalizeText s)).filter
    (fun w => w.length > 2 && !(stopWords.contains w))).eraseDups

/-- Cardinality of the intersection of two duplicate-free lists. -/
def interCard (k1 k2 : List Str) : Nat := (k1.filter (fun w => k2.contains w)).length

/-- Cardinality of the union of two duplicate-free lists. -/
def unionCard (k1 k2 : List Str) : Nat :=
  k1.length + (k2.filter (fun w => !k1.contains w)).length

/-- `AnswerEvaluator._fuzzy_match` (`evaluator.py` lines 63-96). -/
def fuzzyMatch (t1 t2 : Str) : ℚ :=
  let n1 := normalizeText t1
  let n2 := normalizeText t2
  if n1 = [] || n2 = [] then 0
  else
    let similarity := seqSimilarity n1 n2
    let k1 := extractKeywords t1
    let k2 := extractKeywords t2
    if !k1.isEmpty && !k2.isEmpty then
      let overlap := interCard k1 k2
      let union := unionCard k1 k2
      let keywordSimilarity : ℚ := if union > 0 then (overlap : ℚ) / (union : ℚ) else 0
      similarity * (0.4 : ℚ) + keywordSimilarity * (0.6 : ℚ)
    else similarity

/-- `AnswerEvaluator._check_key_phrases` (`evaluator.py` lines 98-134). -/
def checkKeyPhrases (userAnswer correctAnswer : Str) : Bool :=
  let userNorm := normalizeText userAnswer
  let correctNorm := normalizeText correctAnswer
  let correctWords := splitWs correctNorm
  if correctWords.length < 2 then false
  else
    let phrases := (List.range (correctWords.length - 1)).filterMap (fun i =>
      let phrase := correctWords.getD i [] ++ ' ' :: correctWords.getD (i + 1) []
      if phrase.length > 5 then some phrase else none)
    if phrases.any (fun phrase => containsSub userNorm phrase) then true
    else
      let importantWords := correctWords.filter (fun w => w.length > 4)
      let matchCount := (importantWords.filter (fun w => containsSub userNorm w)).length
      if importantWords.isEmpty then false
      else decide ((matchCount : ℚ) ≥ (importantWords.length : ℚ) * (0.5 : ℚ))

/-- Round-half-even, the rounding used by Python string formatting. -/
def roundHalfEven (x : ℚ) : ℤ :=
  let f := ⌊x⌋
  if x - f < 1/2 then f
  else if 1/2 < x - f then f + 1
  else if f % 2 = 0 then f else f + 1

/-- Python `f"{x:.0%}"`: the value times 100, rounded to an integer, with a
percent sign. -/
def pctFormat (x : ℚ) : Str := (toString (roundHalfEven (x * 100))).toList ++ ['%']

/-- `AnswerEvaluator.evaluate_answer` (`evaluator.py` lines 136-187).
`threshold` is the evaluator's `similarity_threshold` constructor argument;
`questionArg` and `contextArg` are the optional `question`/`context`
parameters, unused by the body. -/
def evaluateAnswer (threshold : ℚ) (userAnswer correctAnswer : Str)
    (questionArg contextArg : Str) : Bool × Str :=
  if pyStrip userAnswer = [] then
    (false, "Incorrect. The correct answer is: ".toList ++ correctAnswer)
  else
    let userNorm := normalizeText userAnswer
    let correctNorm := normalizeText correctAnswer
    if userNorm = correctNorm then (true, "Correct!".toList)
    else if containsSub userNorm correctNorm then (true, "Correct!".toList)
    else if containsSub correctNorm userNorm &&
            decide ((userNorm.length : ℚ) > (correctNorm.length : ℚ) * (0.7 : ℚ)) then
      (true, "Correct!".toList)
    else
      let similarity := fuzzyMatch userAnswer correctAnswer
      if similarity ≥ threshold then (true, "Correct!".toList)
      else if checkKeyPhrases userAnswer correctAnswer then (true, "Correct!".toList)
      else
        (false, "Incorrect. The correct answer is: ".toList ++ correctAnswer ++
          (if similarity > (0.3 : ℚ) then
            " (Your answer was close: ".toList ++ pctFormat similarity ++
              " similar)".toList
          else []))

/-- The default `similarity_threshold` of `AnswerEvaluator.__init__`. -/
def defaultThreshold : ℚ := 0.6

/-! ### Facts about normalization, towards idempotence (claim C8) -/

theorem toLower_toLower (c : Char) : c.toLower.toLower = c.toLower := by
  by_cases h : c.toNat ≥ 65 ∧ c.toNat ≤ 90
  · have h1 : c.toLower = Char.ofNat (c.toNat + 32) := by
      unfold Char.toLower
      rw [if_pos h]
    have hv : ((c.toNat + 32) : Nat).isValidChar := Or.inl (by omega)
    have h2 : (Char.ofNat (c.toNat + 32)).toNat = c.toNat + 32 := by
      unfold Char.ofNat
      rw [dif_pos hv]
      simp [Char.ofNatAux, Char.toNat, UInt32.toNat]
    rw [h1]
    unfold Char.toLower
    rw [if_neg]
    rw [h2]
    omega
  · have h1 : c.toLower = c := by
      unfold Char.toLower
      rw [if_neg h]
    rw [h1, h1]

/-- A list of words is `good` when every word is nonempty and space-free. -/
def goodWords (ws : List Str) : Prop :=
  ∀ w ∈ ws, w ≠ [] ∧ ∀ c ∈ w, pySpace c = false

theorem splitWs_sound_aux : ∀ (n : Nat) (l : Str), l.length ≤ n →
    ∀ w ∈ splitWs l, w ≠ [] ∧ ∀ c ∈ w, pySpace c = false ∧ c ∈ l := by
  intro n
  induction n with
  | zero =>
    intro l hl w hw
    have : l = [] := List.length_eq_zero.mp (by omega)
    subst this
    simp [splitWs, splitWsF] at hw
  | succ n ih =>
    intro l hl w hw
    cases l with
    | nil => simp [splitWs, splitWsF] at hw
    | cons c cs =>
      rw [splitWs_cons] at hw
      simp only [List.length_cons] at hl
      by_cases h : pySpace c
      · rw [if_pos h] at hw
        refine ⟨(ih cs (by omega) w hw).1, fun d hd => ?_⟩
        exact ⟨((ih cs (by omega) w hw).2 d hd).1,
          List.mem_cons_of_mem _ ((ih cs (by omega) w hw).2 d hd).2⟩
      · rw [if_neg h] at hw
        rcases List.mem_cons.mp hw with rfl | hw'
        · refine ⟨by simp, fun d hd => ?_⟩
          rcases List.mem_cons.mp hd with rfl | hd'
          · exact ⟨by simpa using h, List.mem_cons_self _ _⟩
          · refine ⟨by simpa using List.mem_takeWhile_imp hd', ?_⟩
            exact List.mem_cons_of_mem _ ((List.takeWhile_sublist _).subset hd')
        · have hlen := (List.dropWhile_sublist (l := cs) (fun d => !pySpace d)).length_le
          have ih' := ih (cs.dropWhile (fun d => !pySpace d)) (by omega) w hw'
          refine ⟨ih'.1, fun d hd => ?_⟩
          exact ⟨(ih'.2 d hd).1,
            List.mem_cons_of_mem _ ((List.dropWhile_sublist _).subset (ih'.2 d hd).2)⟩

theorem splitWs_sound (l : Str) :
    ∀ w ∈ splitWs l, w ≠ [] ∧ ∀ c ∈ w, pySpace c = false ∧ c ∈ l :=
  splitWs_sound_aux l.length l (Nat.le_refl _)

theorem splitWs_word_append (x : Str) (c : Char) (cs : Str)
    (hc : pySpace c = false) (hcs : ∀ d ∈ cs, pySpace d = false) :
    splitWs ((c :: cs) ++ x) =
      ((c :: cs) ++ x.takeWhile (fun d => !pySpace d)) ::
        splitWs (x.dropWhile (fun d => !pySpace d)) := by
  rw [List.cons_append, splitWs_cons, if_neg (by simp [hc]),
    List.takeWhile_append_of_pos (by intro a ha; simpa using hcs a ha),
    List.dropWhile_append_of_pos (by intro a ha; simpa using hcs a ha)]
  simp

theorem splitWs_joinSp : ∀ (ws : List Str), goodWords ws → splitWs (joinSp ws) = ws := by
  intro ws
  induction ws with
  | nil =>
    intro _
    rfl
  | cons w ws ih =>
    intro h
    obtain ⟨hne, hns⟩ := h w (List.mem_cons_self _ _)
    obtain ⟨c, cs, rfl⟩ : ∃ c cs, w = c :: cs := by
      cases w with
      | nil => exact absurd rfl hne
      | cons c cs => exact ⟨c, cs, rfl⟩
    have hc : pySpace c = false := hns c (List.mem_cons_self _ _)
    have hcs : ∀ d ∈ cs, pySpace d = false := fun d hd => hns d (List.mem_cons_of_mem _ hd)
    cases ws with
    | nil =>
      have hj : joinSp [c :: cs] = (c :: cs) ++ [] := by simp [joinSp]
      rw [hj, splitWs_word_append [] c cs hc hcs]
      simp [splitWs, splitWsF]
    | cons w' ws' =>
      have hj : joinSp ((c :: cs) :: w' :: ws') = (c :: cs) ++ ' ' :: joinSp (w' :: ws') := rfl
      rw [hj, splitWs_word_append (' ' :: joinSp (w' :: ws')) c cs hc hcs]
      have hsp : pySpace ' ' = true := by decide
      rw [List.takeWhile_cons_of_neg (by simp [hsp]), List.dropWhile_cons_of_neg (by simp [hsp])]
      have : splitWs (' ' :: joinSp (w' :: ws')) = splitWs (joinSp (w' :: ws')) := by
        rw [splitWs_cons, if_pos hsp]
      rw [List.append_nil, this, ih (fun u hu => h u (List.mem_cons_of_mem _ hu))]

theorem joinSp_reverse_good : ∀ (ws : List Str), ws ≠ [] → goodWords ws →
    ∃ d t, (joinSp ws).reverse = d :: t ∧ pySpace d = false := by
  intro ws
  induction ws with
  | nil => intro h; exact absurd rfl h
  | cons w ws ih =>
    intro _ h
    obtain ⟨hne, hns⟩ := h w (List.mem_cons_self _ _)
    cases ws with
    | nil =>
      show ∃ d t, w.reverse = d :: t ∧ pySpace d = false
      obtain ⟨d, t, hdt⟩ : ∃ d t, w.reverse = d :: t := by
        cases hw : w.reverse with
        | nil => exact absurd (by simpa using congrArg List.reverse hw) hne
        | cons d t => exact ⟨d, t, rfl⟩
      refine ⟨d, t, hdt, hns d ?_⟩
      have : d ∈ w.reverse := by rw [hdt]; exact List.mem_cons_self _ _
      exact List.mem_reverse.mp this
    | cons w' ws' =>
      obtain ⟨d, t, hdt, hd⟩ := ih (by simp) (fun u hu => h u (List.mem_cons_of_mem _ hu))
      refine ⟨d, t ++ ' ' :: w.reverse, ?_, hd⟩
      show (w ++ ' ' :: joinSp (w' :: ws')).reverse = d :: (t ++ ' ' :: w.reverse)
      rw [List.reverse_append, List.reverse_cons, hdt]
      simp

theorem joinSp_head_good (w : Str) (ws : List Str) (hne : w ≠ []) :
    ∃ rest, joinSp (w :: ws) = w.headI :: rest := by
  obtain ⟨c, cs, rfl⟩ : ∃ c cs, w = c :: cs := by
    cases w with
    | nil => exact absurd rfl hne
    | cons c cs => exact ⟨c, cs, rfl⟩
  cases ws with
  | nil => exact ⟨cs, rfl⟩
  | cons w' ws' => exact ⟨cs ++ ' ' :: joinSp (w' :: ws'), rfl⟩

theorem pyStrip_joinSp (ws : List Str) (h : goodWords ws) :
    pyStrip (joinSp ws) = joinSp ws := by
  cases ws with
  | nil => rfl
  | cons w ws' =>
    obtain ⟨hne, hns⟩ := h w (List.mem_cons_self _ _)
    obtain ⟨rest, hrest⟩ := joinSp_head_good w ws' hne
    have hhd : pySpace w.headI = false := by
      refine hns w.headI ?_
      cases w with
      | nil => exact absurd rfl hne
      | cons c cs => exact List.mem_cons_self _ _
    unfold pyStrip
    rw [hrest, List.dropWhile_cons_of_neg (by simp [hhd]), ← hrest]
    unfold dropEndWhile
    obtain ⟨d, t, hdt, hd⟩ := joinSp_reverse_good (w :: ws') (by simp) h
    rw [hdt, List.dropWhile_cons_of_neg (by simp [hd]), ← hdt, List.reverse_reverse]

theorem mem_joinSp {c : Char} :
    ∀ {ws : List Str}, c ∈ joinSp ws → c = ' ' ∨ ∃ w ∈ ws, c ∈ w := by
  intro ws
  induction ws with
  | nil => intro h; simp [joinSp] at h
  | cons w ws ih =>
    intro h
    cases ws with
    | nil =>
      right
      exact ⟨w, List.mem_cons_self _ _, h⟩
    | cons w' ws' =>
      rcases List.mem_append.mp h with h1 | h2
      · exact Or.inr ⟨w, List.mem_cons_self _ _, h1⟩
      · rcases List.mem_cons.mp h2 with rfl | h3
        · exact Or.inl rfl
        · rcases ih h3 with h4 | ⟨u, hu, hcu⟩
          · exact Or.inl h4
          · exact Or.inr ⟨u, List.mem_cons_of_mem _ hu, hcu⟩

theorem normalizeText_eq_joinSp (l : Str) :
    normalizeText l = joinSp (splitWs ((lowerStr l).filter keepChar)) := by
  unfold normalizeText collapseWs
  apply pyStrip_joinSp
  intro w hw
  exact ⟨(splitWs_sound _ w hw).1, fun c hc => ((splitWs_sound _ w hw).2 c hc).1⟩

/-- Claim C8: normalization is idempotent. -/
theorem C8_normalizeText_idem (s : Str) :
    normalizeText (normalizeText s) = normalizeText s := by
  have hgood : goodWords (splitWs ((lowerStr s).filter keepChar)) := by
    intro w hw
    exact ⟨(splitWs_sound _ w hw).1, fun c hc => ((splitWs_sound _ w hw).2 c hc).1⟩
  have hchar : ∀ c ∈ joinSp (splitWs ((lowerStr s).filter keepChar)),
      keepChar c = true ∧ c.toLower = c := by
    intro c hc
    rcases mem_joinSp hc with rfl | ⟨w, hw, hcw⟩
    · exact ⟨by decide, by decide⟩
    · have hcf : c ∈ (lowerStr s).filter keepChar := ((splitWs_sound _ w hw).2 c hcw).2
      have hkeep : keepChar c = true := List.of_mem_filter hcf
      have hmem : c ∈ List.map Char.toLower s := List.mem_of_mem_filter hcf
      obtain ⟨c0, _, rfl⟩ := List.mem_map.mp hmem
      exact ⟨hkeep, toLower_toLower c0⟩
  rw [normalizeText_eq_joinSp s, normalizeText_eq_joinSp]
  have h2 : lowerStr (joinSp (splitWs ((lowerStr s).filter keepChar))) =
      joinSp (splitWs ((lowerStr s).filter keepChar)) := by
    show List.map Char.toLower _ = _
    rw [List.map_congr_left (fun c hc => (hchar c hc).2)]
    exact List.map_id _
  have h3 : (joinSp (splitWs ((lowerStr s).filter keepChar))).filter keepChar =
      joinSp (splitWs ((lowerStr s).filter keepChar)) :=
    List.filter_eq_self.mpr (fun c hc => (hchar c hc).1)
  rw [h2, h3, splitWs_joinSp _ hgood]

/-! ### The evaluation cascade as specified in §4.6 of the spec (claims C1, C7) -/

/-- Spec §4.6 check (a): empty/whitespace-only user answer. -/
def checkA (userAnswer : Str) : Prop := pyStrip userAnswer = []

/-- Spec §4.6 check (b): normalized exact equality. -/
def checkB (userAnswer correctAnswer : Str) : Prop :=
  normalizeText userAnswer = normalizeText correctAnswer

/-- Spec §4.6 check (c): normalized correct answer is a substring of the
normalized user answer. -/
def checkC (userAnswer correctAnswer : Str) : Prop :=
  containsSub (normalizeText userAnswer) (normalizeText correctAnswer) = true

/-- Spec §4.6 check (d): normalized user answer is a substring of the
normalized correct answer and the user length exceeds 0.7 times the correct
length. -/
def checkD (userAnswer correctAnswer : Str) : Prop :=
  containsSub (normalizeText correctAnswer) (normalizeText userAnswer) = true ∧
    ((normalizeText userAnswer).length : ℚ) >
      ((normalizeText correctAnswer).length : ℚ) * (0.7 : ℚ)

/-- Spec §4.6 check (e): combined fuzzy score at or above the threshold. -/
def checkE (threshold : ℚ) (userAnswer correctAnswer : Str) : Prop :=
  fuzzyMatch userAnswer correctAnswer ≥ threshold

/-- Spec §4.6 check (f): key-phrase containment. -/
def checkF (userAnswer correctAnswer : Str) : Prop :=
  checkKeyPhrases userAnswer correctAnswer = true

/-- Spec §4.6 step (g): incorrect, quoting the correct answer, with the
percentage similarity appended when the fuzzy score exceeds 0.3. -/
def verdictG (userAnswer correctAnswer : Str) : Bool × Str :=
  (false, "Incorrect. The correct answer is: ".toList ++ correctAnswer ++
    (if fuzzyMatch userAnswer correctAnswer > (0.3 : ℚ) then
      " (Your answer was close: ".toList ++
        pctFormat (fuzzyMatch userAnswer correctAnswer) ++ " similar)".toList
    else []))

instance decCheckA (ua : Str) : Decidable (checkA ua) :=
  inferInstanceAs (Decidable (_ = _))

instance decCheckB (ua ca : Str) : Decidable (checkB ua ca) :=
  inferInstanceAs (Decidable (_ = _))

instance decCheckC (ua ca : Str) : Decidable (checkC ua ca) :=
  inferInstanceAs (Decidable (_ = _))

instance decCheckD (ua ca : Str) : Decidable (checkD ua ca) :=
  inferInstanceAs (Decidable (_ ∧ _))

instance decCheckE (threshold : ℚ) (ua ca : Str) : Decidable (checkE threshold ua ca) :=
  inferInstanceAs (Decidable (_ ≤ _))

instance decCheckF (ua ca : Str) : Decidable (checkF ua ca) :=
  inferInstanceAs (Decidable (_ = _))

/-- The answer-evaluation cascade written from the words of spec §4.6:
checks (a) through (f) in this exact order, first match wins, verdict (g)
otherwise. -/
def specEvaluate (threshold : ℚ) (userAnswer correctAnswer : Str) : Bool × Str :=
  if checkA userAnswer then
    (false, "Incorrect. The correct answer is: ".toList ++ correctAnswer)
  else if checkB userAnswer correctAnswer then (true, "Correct!".toList)
  else if checkC userAnswer correctAnswer then (true, "Correct!".toList)
  else if checkD userAnswer correctAnswer then (true, "Correct!".toList)
  else if checkE threshold userAnswer correctAnswer then (true, "Correct!".toList)
  else if checkF userAnswer correctAnswer then (true, "Correct!".toList)
  else verdictG userAnswer correctAnswer

/-- The implementation's cascade agrees everywhere with the spec's ordered
cascade (shared helper for the claim theorems below). -/
theorem evaluateAnswer_eq_specEvaluate (threshold : ℚ)
    (ua ca questionArg contextArg : Str) :
    evaluateAnswer threshold ua ca questionArg contextArg =
      specEvaluate threshold ua ca := by
  unfold evaluateAnswer specEvaluate checkA checkB checkC checkD checkE checkF verdictG
  by_cases hA : pyStrip ua = []
  · simp only [if_pos hA]
  · simp only [if_neg hA]
    by_cases hB : normalizeText ua = normalizeText ca
    · simp only [if_pos hB]
    · simp only [if_neg hB]
      by_cases hC : containsSub (normalizeText ua) (normalizeText ca) = true
      · simp only [hC, if_true, if_pos hC]
      · simp only [hC, Bool.false_eq_true, if_false, if_neg hC]
        by_cases hD1 : containsSub (normalizeText ca) (normalizeText ua) = true
        · by_cases hD2 : ((normalizeText ua).length : ℚ) >
              ((normalizeText ca).length : ℚ) * (0.7 : ℚ)
          · simp [hD1, hD2]
          · simp [hD1, hD2]
        · simp [hD1]

/-- C1: `evaluate_answer` applies the checks of spec §4.6 in the exact order
a-g and returns the verdict of the first matching check; later checks never
override an earlier decision.  Stated as: the implementation equals the
ordered spec cascade, for every threshold, answer pair and (ignored)
question/context arguments. -/
theorem C1_evaluate_cascade_order (threshold : ℚ)
    (userAnswer correctAnswer questionArg contextArg : Str) :
    evaluateAnswer threshold userAnswer correctAnswer questionArg contextArg =
      specEvaluate threshold userAnswer correctAnswer :=
  evaluateAnswer_eq_specEvaluate threshold userAnswer correctAnswer questionArg contextArg

/-- C10: the verdict depends only on the answers: the optional question and
context arguments never influence the result. -/
theorem C10_verdict_ignores_question_and_context (threshold : ℚ)
    (userAnswer correctAnswer q1 c1 q2 c2 : Str) :
    evaluateAnswer threshold userAnswer correctAnswer q1 c1 =
      evaluateAnswer threshold userAnswer correctAnswer q2 c2 := rfl

/-- Jaccard index of two keyword sets, as described in spec §4.6 (e). -/
def keywordJaccard (k1 k2 : List Str) : ℚ :=
  (interCard k1 k2 : ℚ) / (unionCard k1 k2 : ℚ)

/-- Steps (f) and (g) of the cascade, the continuation after check (e) fails. -/
def stepFG (userAnswer correctAnswer : Str) : Bool × Str :=
  if checkF userAnswer correctAnswer then (true, "Correct!".toList)
  else verdictG userAnswer correctAnswer

/-- C7: for texts with non-empty normalizations the fuzzy score is
`0.4 * sequence_ratio + 0.6 * keyword_jaccard` when both keyword sets are
non-empty and the sequence ratio alone otherwise; and when checks (a)-(d)
fail, step (e) declares the answer correct exactly when this score is at or
above the threshold. -/
theorem C7_fuzzy_score_formula (threshold : ℚ) (t1 t2 : Str)
    (h1 : normalizeText t1 ≠ []) (h2 : normalizeText t2 ≠ []) :
    (fuzzyMatch t1 t2 =
      if extractKeywords t1 ≠ [] ∧ extractKeywords t2 ≠ [] then
        seqSimilarity (normalizeText t1) (normalizeText t2) * (0.4 : ℚ) +
          keywordJaccard (extractKeywords t1) (extractKeywords t2) * (0.6 : ℚ)
      else seqSimilarity (normalizeText t1) (normalizeText t2)) ∧
    (¬ checkA t1 → ¬ checkB t1 t2 → ¬ checkC t1 t2 → ¬ checkD t1 t2 →
      ∀ questionArg contextArg,
        evaluateAnswer threshold t1 t2 questionArg contextArg =
          if fuzzyMatch t1 t2 ≥ threshold then (true, "Correct!".toList)
          else stepFG t1 t2) := by
  constructor
  · unfold fuzzyMatch
    simp only [h1, h2, Bool.or_self, if_false]
    rw [if_neg (by simp [h1, h2])]
    by_cases hk : extractKeywords t1 ≠ [] ∧ extractKeywords t2 ≠ []
    · have hk1 : (extractKeywords t1).isEmpty = false := by
        simp [List.isEmpty_iff, hk.1]
      have hk2 : (extractKeywords t2).isEmpty = false := by
        simp [List.isEmpty_iff, hk.2]
      have hu : unionCard (extractKeywords t1) (extractKeywords t2) > 0 := by
        unfold unionCard
        have : (extractKeywords t1).length > 0 := List.length_pos.mpr hk.1
        omega
      rw [if_pos hk]
      simp only [hk1, hk2, Bool.not_false, Bool.and_self, if_true, if_pos hu]
      rfl
    · rw [if_neg hk]
      rcases not_and_or.mp hk with hk' | hk'
      · have : (extractKeywords t1).isEmpty = true := by
          simp only [List.isEmpty_iff]
          exact not_not.mp hk'
        simp [this]
      · have : (extractKeywords t2).isEmpty = true := by
          simp only [List.isEmpty_iff]
          exact not_not.mp hk'
        simp [this]
  · intro hA hB hC hD questionArg contextArg
    rw [evaluateAnswer_eq_specEvaluate]
    unfold specEvaluate stepFG checkE
    rw [if_neg hA, if_neg hB, if_neg hC, if_neg hD]

/-! ### `QuizRunner.explain_question` (claim C9) -/

/-- A quiz result record as accumulated by `QuizRunner.run_quiz`. -/
structure QuizResult where
  question : Str
  user_answer : Str
  correct_answer : Str
  is_correct : Bool
  context : Str
deriving DecidableEq

/-- The explanation string built by `QuizRunner.explain_question` for an
in-range question number (`quiz_runner.py` lines 152-160). -/
def explanationOf (r : QuizResult) : Str :=
  "\nQuestion: ".toList ++ r.question ++ "\n".toList ++
  "Correct Answer: ".toList ++ r.correct_answer ++ "\n".toList ++
  (if r.context ≠ [] then
    "Source: ".toList ++ r.context.take 200 ++ "...\n".toList
  else []) ++
  "Your Answer: ".toList ++ r.user_answer ++ "\n".toList ++
  "Result: ".toList ++
  (if r.is_correct then "✅ Correct".toList else "❌ Incorrect".toList) ++
  "\n".toList

def notFoundMsg : Str := "Question not found. Please run a quiz first.".toList

/-- `QuizRunner.explain_question` (`quiz_runner.py` lines 139-160).  `none`
models an uncaught exception (an out-of-bounds list access); the guard makes
the indexing in the `else` branch safe, where `question_number ≥ 1` so the
`toNat` coercion is exact. -/
def explainQuestion (results : List QuizResult) (questionNumber : ℤ) : Option Str :=
  if results = [] ∨ questionNumber < 1 ∨ questionNumber > results.length then
    some notFoundMsg
  else
    (results[(questionNumber - 1).toNat]?).map explanationOf

/-- C9: `explain_question` never raises: every out-of-range question number
(including the no-results state) yields the "not found" message, and every
in-range number yields the explanation string of the selected result. -/
theorem C9_explainQuestion_total (results : List QuizResult) (n : ℤ) :
    ((results = [] ∨ n < 1 ∨ n > results.length) →
      explainQuestion results n = some notFoundMsg) ∧
    (results ≠ [] → 1 ≤ n → n ≤ results.length →
      ∃ r, results[(n - 1).toNat]? = some r ∧
        explainQuestion results n = some (explanationOf r)) ∧
    (explainQuestion results n).isSome = true := by
  have hmain : results ≠ [] → 1 ≤ n → n ≤ results.length →
      ∃ r, results[(n - 1).toNat]? = some r ∧
        explainQuestion results n = some (explanationOf r) := by
    intro hne h1 h2
    have hlt : (n - 1).toNat < results.length := by omega
    have hsome := List.getElem?_eq_getElem hlt
    have hguard : ¬ (results = [] ∨ n < 1 ∨ n > (results.length : ℤ)) := by
      intro h
      rcases h with h | h | h
      · exact hne h
      · omega
      · omega
    refine ⟨_, hsome, ?_⟩
    rw [explainQuestion, if_neg hguard, hsome]
    rfl
  refine ⟨fun h => by rw [explainQuestion, if_pos h], hmain, ?_⟩
  by_cases hg : results = [] ∨ n < 1 ∨ n > (results.length : ℤ)
  · rw [explainQuestion, if_pos hg]
    rfl
  · have h1 : results ≠ [] := fun h => hg (Or.inl h)
    have h2 : 1 ≤ n := by
      by_contra h
      exact hg (Or.inr (Or.inl (by omega)))
    have h3 : n ≤ results.length := by
      by_contra h
      exact hg (Or.inr (Or.inr (by omega)))
    obtain ⟨r, _, he⟩ := hmain h1 h2 h3
    rw [he]
    rfl

set_option maxRecDepth 4000 in
unseal Rat.add Rat.mul Rat.inv Rat.sub Rat.ofScientific in
/-- Witness for C7 at the concrete pair `"red fox"` / `"red dog"` with the
default threshold: both normalizations are non-empty, checks (a)-(d) fail,
both keyword sets are non-empty, and the fuzzy score `17/35` falls below the
threshold so evaluation continues with steps (f)/(g). -/
theorem C7_witness :
    fuzzyMatch "red fox".toList "red dog".toList =
      seqSimilarity (normalizeText "red fox".toList) (normalizeText "red dog".toList)
          * (0.4 : ℚ) +
        keywordJaccard (extractKeywords "red fox".toList)
          (extractKeywords "red dog".toList) * (0.6 : ℚ) ∧
    evaluateAnswer (3/5) "red fox".toList "red dog".toList [] [] =
      stepFG "red fox".toList "red dog".toList := by
  have h := C7_fuzzy_score_formula (3/5) "red fox".toList "red dog".toList
    (by decide) (by decide)
  constructor
  · rw [h.1, if_pos (by decide)]
  · rw [h.2 (by decide) (by decide) (by decide) (by decide) [] [], if_neg (by decide)]

/-- Witness for C9: the empty-results state and an in-range lookup on a
one-element result list. -/
theorem C9_witness :
    explainQuestion [] 1 = some notFoundMsg ∧
    (∃ r, ([QuizResult.mk [] [] [] true []])[((1 : ℤ) - 1).toNat]? = some r ∧
      explainQuestion [QuizResult.mk [] [] [] true []] 1 = some (explanationOf r)) := by
  constructor
  · exact (C9_explainQuestion_total [] 1).1 (Or.inl rfl)
  · exact (C9_explainQuestion_total [QuizResult.mk [] [] [] true []] 1).2.1
      (by simp) (by decide) (by simp)

/-! ### The Relevance Ranker (`question_generator.py` lines 80-151, claims C5, C6) -/

/-- The Python slice `a[-n:]` (for `n = 0` the slice `[-0:]` is the whole
list). -/
def lastSlice (n : Nat) (l : List Nat) : List Nat :=
  if n = 0 then l else l.drop (l.length - n)

/-- The property characterizing a possible output `idxs` of
`similarities.argsort()` (line 131): an enumeration of all positions of
`sims`, without repetition, in ascending score order.  numpy's default sort
(quicksort) is not stable, so the relative order of equal scores is
unspecified; the argsort outcome is therefore passed into the selection
functions as a parameter constrained only by this predicate. -/
def IsAscArgsort (sims : List ℚ) (idxs : List Nat) : Prop :=
  idxs.Nodup ∧ idxs.length = sims.length ∧
  (∀ i ∈ idxs, i < sims.length) ∧
  idxs.Pairwise (fun i j => sims.getD i 0 ≤ sims.getD j 0)

instance decIsAscArgsort (sims : List ℚ) (idxs : List Nat) :
    Decidable (IsAscArgsort sims idxs) :=
  inferInstanceAs (Decidable (idxs.Nodup ∧ idxs.length = sims.length ∧
    (∀ i ∈ idxs, i < sims.length) ∧
    idxs.Pairwise (fun i j => sims.getD i 0 ≤ sims.getD j 0)))

/-- The indices selected by the vector path of `_find_relevant_sentences`
(lines 131-132), given the argsort outcome `idxs`: last `n` of the ascending
argsort, reversed, keeping only scores strictly above 0.1. -/
def selectedIdx (idxs : List Nat) (sims : List ℚ) (n : Nat) : List Nat :=
  ((lastSlice n idxs).reverse).filter
    (fun i => decide (sims.getD i 0 > (0.1 : ℚ)))

/-- The sentence list returned by the vector path of
`_find_relevant_sentences` (lines 125-134), given the cosine-similarity
scores `sims` computed for the topic and the argsort outcome `idxs`. -/
def tfidfSelect (sents : List Str) (idxs : List Nat) (sims : List ℚ)
    (n : Nat) : List Str :=
  ((selectedIdx idxs sims n).map (fun i => sents.getD i [])).take n

/-- Stable insertion for descending sort by match count (Python
`list.sort(key=..., reverse=True)` is stable). -/
def insertDesc (x : Str × Nat) : List (Str × Nat) → List (Str × Nat)
  | [] => [x]
  | y :: rest => if y.2 ≥ x.2 then y :: insertDesc x rest else x :: y :: rest

def sortDescByCount (l : List (Str × Nat)) : List (Str × Nat) :=
  l.foldl (fun acc x => insertDesc x acc) []

/-- The keyword-overlap fallback of the Relevance Ranker
(`_find_relevant_sentences_keyword`, lines 140-151, identical to the inline
fallback at lines 112-123): count how many distinct lowercased topic words
occur in each lowercased sentence, keep counts above zero, sort by count
descending (stable), return the first `n` sentences. -/
def keywordFallback (sentences : List Str) (topic : Str) (n : Nat) : List Str :=
  let topicWords := (splitWs (lowerStr topic)).eraseDups
  let relevant := sentences.filterMap (fun sent =>
    let m := (topicWords.filter (fun w => containsSub (lowerStr sent) w)).length
    if m > 0 then some (sent, m) else none)
  ((sortDescByCount relevant).take n).map Prod.fst

/-- `QuestionGenerator._build_tfidf_index` (lines 80-98): nothing is built for
an empty corpus (the vectorizer stays `None`); otherwise the vectorizer is
fitted with **no** exception handling, so a failure of `fit_transform`
propagates out of `__init__`.  The sklearn vectorizer is abstracted as the
`fitTransform` parameter; `Except.error` models a raised exception. -/
def buildTfidfIndex {α : Type} (fitTransform : List Str → Except String α)
    (sentences : List Str) : Except String (Option α) :=
  if sentences.isEmpty then Except.ok none
  else (fitTransform sentences).map some

/-- `QuestionGenerator._find_relevant_sentences` (lines 100-138): the keyword
fallback runs when no index exists; otherwise the vector path runs inside
`try`, falling back to keyword matching on any raised exception.  The
transform-and-cosine computation is abstracted as the `query` parameter
returning the similarity scores or an exception, and `numpy.argsort` (whose
tie order is unspecified) as the `argsort` parameter. -/
def findRelevantSentences {α : Type} (query : α → Str → Except String (List ℚ))
    (argsort : List ℚ → List Nat)
    (index : Option α) (sentences : List Str) (topic : Str) (n : Nat) :
    Except String (List Str) :=
  match index with
  | none => Except.ok (keywordFallback sentences topic n)
  | some idx =>
    match query idx topic with
    | Except.ok sims => Except.ok (tfidfSelect sentences (argsort sims) sims n)
    | Except.error _ => Except.ok (keywordFallback sentences topic n)

/-- C5 counterexample: an index-construction failure at generator
initialization is *not* caught — `_build_tfidf_index` has no exception
handler, so the error surfaces to the caller of `__init__`, contradicting the
claim that such errors are never surfaced. -/
theorem C5_counterexample :
    buildTfidfIndex (fun _ => (Except.error "empty vocabulary" : Except String Unit))
      ["the of and".toList] = Except.error "empty vocabulary" := rfl

/-- C5 amended: query-time failures of the vector-similarity path are handled
transparently — `findRelevant` always returns a sentence list and falls back
to keyword matching whenever the query raises; only index-construction
failures at initialization propagate (see `C5_counterexample`). -/
theorem C5_query_failure_falls_back {α : Type}
    (query : α → Str → Except String (List ℚ)) (argsort : List ℚ → List Nat)
    (index : Option α)
    (sentences : List Str) (topic : Str) (n : Nat) :
    (∃ l, findRelevantSentences query argsort index sentences topic n =
      Except.ok l) ∧
    (∀ idx e, index = some idx → query idx topic = Except.error e →
      findRelevantSentences query argsort index sentences topic n =
        Except.ok (keywordFallback sentences topic n)) := by
  constructor
  · cases index with
    | none => exact ⟨keywordFallback sentences topic n, rfl⟩
    | some idx =>
      cases hq : query idx topic with
      | ok sims =>
        exact ⟨tfidfSelect sentences (argsort sims) sims n,
          by simp [findRelevantSentences, hq]⟩
      | error e =>
        exact ⟨keywordFallback sentences topic n,
          by simp [findRelevantSentences, hq]⟩
  · intro idx e hidx hq
    subst hidx
    simp [findRelevantSentences, hq]

/-- C6 amended: for *every* possible outcome of `similarities.argsort()`
(any duplicate-free ascending-by-score enumeration of the positions — the
order of equal scores is unspecified, since numpy's default sort is not
stable), the selection returns at most `n` sentences, every selected index
scores strictly above 0.1 and is in range, and the selected indices are
ordered by non-strictly descending score.  No guarantee is made about the
relative order of equal scores. -/
theorem C6_tfidfSelect_ordered (sents : List Str) (sims : List ℚ)
    (idxs : List Nat) (n : Nat) (h : IsAscArgsort sims idxs) :
    (tfidfSelect sents idxs sims n).length ≤ n ∧
    (∀ i ∈ selectedIdx idxs sims n,
      sims.getD i 0 > (0.1 : ℚ) ∧ i < sims.length) ∧
    (selectedIdx idxs sims n).Pairwise
      (fun i j => sims.getD i 0 ≥ sims.getD j 0) := by
  obtain ⟨-, -, hbound, hasc⟩ := h
  refine ⟨?_, ?_, ?_⟩
  · unfold tfidfSelect
    rw [List.length_take]
    exact Nat.min_le_left _ _
  · intro i hi
    have h1 := List.of_mem_filter hi
    have h2 : i ∈ (lastSlice n idxs).reverse := List.mem_of_mem_filter hi
    refine ⟨of_decide_eq_true h1, ?_⟩
    have h3 : i ∈ lastSlice n idxs := List.mem_reverse.mp h2
    have h4 : i ∈ idxs := by
      unfold lastSlice at h3
      by_cases hn : n = 0
      · rwa [if_pos hn] at h3
      · rw [if_neg hn] at h3
        exact (List.drop_subset _ _) h3
    exact hbound i h4
  · have h1 : (lastSlice n idxs).Pairwise
        (fun i j => sims.getD i 0 ≤ sims.getD j 0) := by
      unfold lastSlice
      by_cases hn : n = 0
      · rwa [if_pos hn]
      · rw [if_neg hn]
        exact hasc.sublist (List.drop_sublist _ _)
    have h2 : ((lastSlice n idxs).reverse).Pairwise
        (fun i j => sims.getD i 0 ≥ sims.getD j 0) := by
      rw [List.pairwise_reverse]
      exact h1.imp (fun hij => hij)
    exact h2.filter _

unseal Rat.add Rat.mul Rat.inv Rat.sub Rat.ofScientific in
/-- Witness for the amended C6 at a concrete corpus, score vector and valid
argsort outcome. -/
theorem C6_witness :
    IsAscArgsort [(1 : ℚ)/2, (1 : ℚ)/4, (3 : ℚ)/4] [1, 0, 2] ∧
    (tfidfSelect ["a".toList, "b".toList, "c".toList] [1, 0, 2]
      [(1 : ℚ)/2, (1 : ℚ)/4, (3 : ℚ)/4] 2).length ≤ 2 ∧
    (selectedIdx [1, 0, 2] [(1 : ℚ)/2, (1 : ℚ)/4, (3 : ℚ)/4] 2).Pairwise
      (fun i j => ([(1 : ℚ)/2, (1 : ℚ)/4, (3 : ℚ)/4] : List ℚ).getD i 0 ≥
        ([(1 : ℚ)/2, (1 : ℚ)/4, (3 : ℚ)/4] : List ℚ).getD j 0) :=
  ⟨by decide,
    (C6_tfidfSelect_ordered ["a".toList, "b".toList, "c".toList]
      [(1 : ℚ)/2, (1 : ℚ)/4, (3 : ℚ)/4] [1, 0, 2] 2 (by decide)).1,
    (C6_tfidfSelect_ordered ["a".toList, "b".toList, "c".toList]
      [(1 : ℚ)/2, (1 : ℚ)/4, (3 : ℚ)/4] [1, 0, 2] 2 (by decide)).2.2⟩

unseal Rat.add Rat.mul Rat.inv Rat.sub Rat.ofScientific in
/-- C6 counterexample for the tie-order guarantee: on two sentences with
equal similarity scores, the legitimate argsort outcome `[0, 1]` (ascending,
duplicate-free, covering both positions) makes the selection return the
sentences in *reversed* corpus order — so ties are not guaranteed to appear
in original corpus order as claimed. -/
theorem C6_counterexample :
    IsAscArgsort [(1 : ℚ)/2, (1 : ℚ)/2] [0, 1] ∧
    tfidfSelect ["a".toList, "b".toList] [0, 1] [(1 : ℚ)/2, (1 : ℚ)/2] 10 =
      ["b".toList, "a".toList] ∧
    ["b".toList, "a".toList] ≠ (["a".toList, "b".toList] : List Str) := by
  refine ⟨by decide, by decide, by decide⟩

/-! ### A small backtracking regex engine for the synthesizer's patterns
(`question_generator.py` lines 272-502, claims C2, C3, C4)

The nine strategies of `_generate_question_from_sentence` use `re.search`
with patterns built from single-character-class repetitions, literal-word
alternations and flat capturing groups.  The engine below implements exactly
Python's ordered backtracking for this fragment: repetitions try counts
longest-first when greedy and shortest-first when lazy, alternations try
branches left to right, and the search tries start positions left to right. -/

/-- One item of a flattened regular-expression pattern. -/
inductive RItem where
  /-- a counted repetition of a single-character class, at least `lo` and at
  most `hi` times (`none` = unbounded), greedy unless `lz` -/
  | cls (p : Char → Bool) (lo : Nat) (hi : Option Nat) (lz : Bool)
  /-- an alternation of literal strings tried left to right (an empty-string
  member models an optional group); `ci` = case-insensitive -/
  | alts (ci : Bool) (ss : List Str)
  /-- opening parenthesis of a capturing group -/
  | openG
  /-- closing parenthesis of a capturing group -/
  | closeG

/-- Case comparison used by literal matching (`re.IGNORECASE` when `ci`). -/
def ciEq (ci : Bool) (a b : Char) : Bool :=
  if ci then a.toLower = b.toLower else a = b

/-- Does the suffix `suf` start with the literal `w`? -/
def litPre (ci : Bool) : Str → Str → Bool
  | [], _ => true
  | _ :: _, [] => false
  | c :: wrest, d :: srest => ciEq ci d c && litPre ci wrest srest

/-- `[lo, lo+1, ..., mx]`. -/
def countRange (lo mx : Nat) : List Nat :=
  (List.range (mx + 1 - lo)).map (fun k => lo + k)

def firstSome {α β : Type} (f : α → Option β) : List α → Option β
  | [] => none
  | x :: xs =>
    match f x with
    | some r => some r
    | none => firstSome f xs

/-- Run a pattern against the suffix `suf` of the subject (current absolute
position `pos`), with the currently open group and the closed-group spans.
Returns the group spans of the first match in backtracking order, or `none`.
The fuel is always `items.length + 1`, one step per item. -/
def runP : Nat → List RItem → Str → Nat → Option Nat → List (Nat × Nat) →
    Option (List (Nat × Nat))
  | 0, _, _, _, _, _ => none
  | fuel + 1, items, suf, pos, op, caps =>
    match items with
    | [] => some caps.reverse
    | RItem.openG :: rest => runP fuel rest suf pos (some pos) caps
    | RItem.closeG :: rest =>
      match op with
      | some o => runP fuel rest suf pos none ((o, pos) :: caps)
      | none => none
    | RItem.cls p lo hi lz :: rest =>
      let r0 := (suf.takeWhile p).length
      let mx := match hi with | none => r0 | some h => min r0 h
      if mx < lo then none
      else
        let cands := if lz then countRange lo mx else (countRange lo mx).reverse
        firstSome (fun k => runP fuel rest (suf.drop k) (pos + k) op caps) cands
    | RItem.alts ci ss :: rest =>
      firstSome (fun w =>
        if litPre ci w suf then runP fuel rest (suf.drop w.length) (pos + w.length) op caps
        else none) ss

/-- Match a `^`-anchored pattern (only position 0 is tried). -/
def matchPat (items : List RItem) (s : Str) : Option (List (Nat × Nat)) :=
  runP (items.length + 1) items s 0 none []

def searchF : Nat → List RItem → Str → Nat → Option (List (Nat × Nat))
  | 0, _, _, _ => none
  | fuel + 1, items, suf, pos =>
    match runP (items.length + 1) items suf pos none [] with
    | some caps => some caps
    | none =>
      match suf with
      | [] => none
      | _ :: t => searchF fuel items t (pos + 1)

/-- `re.search`: try every start position left to right. -/
def searchPat (items : List RItem) (s : Str) : Option (List (Nat × Nat)) :=
  searchF (s.length + 1) items s 0

/-- The span `s[a:b]`. -/
def sliceStr (s : Str) (ab : Nat × Nat) : Str := (s.drop ab.1).take (ab.2 - ab.1)

/-- Captured group `k` (0-based) of a match against `s`. -/
def groupStr (s : Str) (caps : List (Nat × Nat)) (k : Nat) : Str :=
  sliceStr s (caps.getD k (0, 0))

def wordBoundaryOk : Option Char → Bool
  | none => true
  | some c => !wordChar c

def afterBoundaryOk : Str → Bool
  | [] => true
  | d :: _ => !wordChar d

def containsWordGo (ws : List Str) : Str → Option Char → Bool
  | [], _ => false
  | c :: t, prev =>
    (wordBoundaryOk prev &&
      ws.any (fun w => litPre true w (c :: t) && afterBoundaryOk ((c :: t).drop w.length))) ||
    containsWordGo ws t (some c)

/-- `re.search(r'\b(w1|w2|...)\b', s, re.IGNORECASE) is not None` for
letter-only words. -/
def containsWordCI (s : Str) (ws : List Str) : Bool := containsWordGo ws s none

def stripTrailingScan (ws : List Str) : Str → Nat → Option Nat
  | [], _ => none
  | c :: t, i =>
    if pySpace c &&
        (let r := ((c :: t).takeWhile pySpace).length
         let rest := (c :: t).drop r
         ws.any (fun w => w.length = rest.length && litPre true w rest)) then
      some i
    else stripTrailingScan ws t (i + 1)

/-- `re.sub(r'\s+(w1|...)$', '', s, flags=re.IGNORECASE)` for space-free
words: remove the leftmost final "whitespace then word" tail, if any. -/
def stripTrailingWord (ws : List Str) (s : Str) : Str :=
  match stripTrailingScan ws s 0 with
  | some i => s.take i
  | none => s

def findSubIdx (target : Str) : Str → Nat → Option Nat
  | [], i => if target.isEmpty then some i else none
  | c :: t, i =>
    if litPre false target (c :: t) then some i else findSubIdx target t (i + 1)

/-- Python `s.replace(target, repl, 1)`: replace the first occurrence. -/
def replaceFirst (s target repl : Str) : Str :=
  match findSubIdx target s 0 with
  | some i => s.take i ++ repl ++ s.drop (i + target.length)
  | none => s

/-- `s.rsplit(' ', 1)[0]`. -/
def rsplitFirst (s : Str) : Str :=
  match s.reverse.indexOf? ' ' with
  | some k => s.take (s.length - 1 - k)
  | none => s

/-- `s[:n].rsplit(' ', 1)[0] + '...'`: the word-boundary truncation used
throughout the synthesizer. -/
def truncWord (n : Nat) (s : Str) : Str := rsplitFirst (s.take n) ++ "...".toList

/-- `[a-zA-Z\s]`. -/
def clsLetterSpace (c : Char) : Bool := c.isAlpha || pySpace c

/-- `[^.]`. -/
def clsNonDot (c : Char) : Bool := !(c == '.')

/-- A case-sensitive literal. -/
def lit (w : String) : RItem := RItem.alts false [w.toList]

/-- A case-insensitive alternation of literal words. -/
def altsCI (ws : List String) : RItem := RItem.alts true (ws.map String.toList)

/-- `\s+`. -/
def sp1 : RItem := RItem.cls pySpace 1 none false

/-- `\s*`. -/
def sp0 : RItem := RItem.cls pySpace 0 none false

/-- Strategy 1 pattern: `^([A-Z][a-zA-Z\s]{3,40}?)\s+is\s+([^.]{10,100})`,
IGNORECASE (so `[A-Z]` matches any letter). -/
def pat1 : List RItem :=
  [RItem.openG, RItem.cls Char.isAlpha 1 (some 1) false,
   RItem.cls clsLetterSpace 3 (some 40) true, RItem.closeG,
   sp1, altsCI ["is"], sp1,
   RItem.openG, RItem.cls clsNonDot 10 (some 100) false, RItem.closeG]

/-- Strategy 2 pattern: `([A-Z][a-zA-Z\s]{5,40}) (?:is|are) (?:done by|performed
by|led by|facilitated by|responsible for) ([A-Z][a-zA-Z\s]{3,50})`, IGNORECASE. -/
def pat2 : List RItem :=
  [RItem.openG, RItem.cls Char.isAlpha 1 (some 1) false,
   RItem.cls clsLetterSpace 5 (some 40) false, RItem.closeG,
   lit " ", altsCI ["is", "are"], lit " ",
   altsCI ["done by", "performed by", "led by", "facilitated by", "responsible for"],
   lit " ",
   RItem.openG, RItem.cls Char.isAlpha 1 (some 1) false,
   RItem.cls clsLetterSpace 3 (some 50) false, RItem.closeG]

/-- Strategy 3 pattern: `([A-Z][^.]{5,}) (?:is|are|lasts|takes)
(?:typically|usually|generally|about|approximately)?\s*(\d+)\s+(\w+)`,
IGNORECASE. -/
def pat3 : List RItem :=
  [RItem.openG, RItem.cls Char.isAlpha 1 (some 1) false,
   RItem.cls clsNonDot 5 none false, RItem.closeG,
   lit " ", altsCI ["is", "are", "lasts", "takes"], lit " ",
   altsCI ["typically", "usually", "generally", "about", "approximately", ""],
   sp0,
   RItem.openG, RItem.cls Char.isDigit 1 none false, RItem.closeG,
   sp1,
   RItem.openG, RItem.cls wordChar 1 none false, RItem.closeG]

/-- Strategy 5 pattern:
`^([A-Z][a-zA-Z\s]{3,30}?)\s+(?:performs|facilitates|manages|handles|executes)\s+([^.]{10,80})`,
IGNORECASE. -/
def pat5 : List RItem :=
  [RItem.openG, RItem.cls Char.isAlpha 1 (some 1) false,
   RItem.cls clsLetterSpace 3 (some 30) true, RItem.closeG,
   sp1, altsCI ["performs", "facilitates", "manages", "handles", "executes"], sp1,
   RItem.openG, RItem.cls clsNonDot 10 (some 80) false, RItem.closeG]

/-- Strategy 6 pattern:
`^([A-Z][a-zA-Z\s]{3,30}?)\s+(?:includes|consists of|has|contains)\s+([^.]{10,100})`,
IGNORECASE. -/
def pat6 : List RItem :=
  [RItem.openG, RItem.cls Char.isAlpha 1 (some 1) false,
   RItem.cls clsLetterSpace 3 (some 30) true, RItem.closeG,
   sp1, altsCI ["includes", "consists of", "has", "contains"], sp1,
   RItem.openG, RItem.cls clsNonDot 10 (some 100) false, RItem.closeG]

/-- Strategy 7 pattern: `^([A-Z][a-zA-Z\s]{5,40}?)\s+(?:is|are)\s+(?:used
for|designed to|aims to|purpose is|role is)\s+([^.]{10,80})`, IGNORECASE. -/
def pat7 : List RItem :=
  [RItem.openG, RItem.cls Char.isAlpha 1 (some 1) false,
   RItem.cls clsLetterSpace 5 (some 40) true, RItem.closeG,
   sp1, altsCI ["is", "are"], sp1,
   altsCI ["used for", "designed to", "aims to", "purpose is", "role is"], sp1,
   RItem.openG, RItem.cls clsNonDot 10 (some 80) false, RItem.closeG]

/-- Strategy 8 pattern: `([A-Z][a-zA-Z\s]{3,35}?)\s+is\s+([^.]{15,100})` with
*no* IGNORECASE flag. -/
def pat8 : List RItem :=
  [RItem.openG, RItem.cls Char.isUpper 1 (some 1) false,
   RItem.cls clsLetterSpace 3 (some 35) true, RItem.closeG,
   sp1, lit "is", sp1,
   RItem.openG, RItem.cls clsNonDot 15 (some 100) false, RItem.closeG]

/-- The action-verb exclusion list of strategies 1. -/
def verbWords1 : List Str :=
  ["uses", "does", "performs", "facilitates", "manages", "involves"].map String.toList

/-- The trailing linking words stripped from subjects in strategies 1 and 8. -/
def linkWords : List Str :=
  ["is", "are", "was", "were", "the", "a", "an"].map String.toList

/-- Strategy 1 of `_generate_question_from_sentence` (lines 294-308):
"What is X?" from a sentence-initial definition. -/
def strategy1 (s : Str) : Option (Str × Str) :=
  match matchPat pat1 s with
  | none => none
  | some caps =>
    let subject := pyStrip (groupStr s caps 0)
    let definition := pyStrip (groupStr s caps 1)
    if containsWordCI subject verbWords1 then none
    else
      let subject := stripTrailingWord linkWords subject
      let definition := if definition.length > 100 then truncWord 100 definition else definition
      some ("What is ".toList ++ subject ++ "?".toList, definition)

/-- Strategy 2 (lines 310-322): "Who ...?" from agent patterns. -/
def strategy2 (s : Str) : Option (Str × Str) :=
  match searchPat pat2 s with
  | none => none
  | some caps =>
    let action := pyStrip (groupStr s caps 0)
    let actor := pyStrip (groupStr s caps 1)
    let actor := actor.takeWhile (fun c => !(c == ',') && !pySpace c)
    let actor := if actor.length > 30 then actor.take 30 else actor
    some ("Who ".toList ++ lowerStr action ++ "?".toList, actor)

def timeUnits : List Str :=
  ["week", "weeks", "day", "days", "hour", "hours"].map String.toList

/-- Strategy 3 (lines 324-332): "How long/How many" from quantity patterns. -/
def strategy3 (s : Str) : Option (Str × Str) :=
  match searchPat pat3 s with
  | none => none
  | some caps =>
    let subject := pyStrip (groupStr s caps 0)
    let number := groupStr s caps 1
    let unit := groupStr s caps 2
    let question :=
      if timeUnits.contains unit then
        "How long is ".toList ++ lowerStr subject ++ "?".toList
      else
        "How many ".toList ++ unit ++ " is ".toList ++ lowerStr subject ++ "?".toList
    some (question, number ++ " ".toList ++ unit)

/-- The NLTK `word_tokenize` + `pos_tag` pipeline as an abstract oracle on the
sentence text; `none` models a raised exception (e.g. missing NLTK data). -/
abbrev Tagger := Str → Option (List (Str × Str))

def startsWithTag (tag pre : Str) : Bool := pre.isPrefixOf tag

/-- The noun-phrase runs of strategy 4 (lines 345-356): maximal runs of
`NN*`/`JJ*`-tagged tokens of length 2-4, joined by single spaces. -/
def collectRuns (tagged : List (Str × Str)) : List Str :=
  let f := tagged.foldl (fun (acc : List Str × List Str) wt =>
    if startsWithTag wt.2 "NN".toList || startsWithTag wt.2 "JJ".toList then
      (acc.1, acc.2 ++ [wt.1])
    else if 2 ≤ acc.2.length && acc.2.length ≤ 4 then (acc.1 ++ [joinSp acc.2], [])
    else (acc.1, []))
    ([], [])
  if 2 ≤ f.2.length && f.2.length ≤ 4 then f.1 ++ [joinSp f.2] else f.1

def insertByLen (x : Str) : List Str → List Str
  | [] => [x]
  | y :: rest => if y.length ≤ x.length then y :: insertByLen x rest else x :: y :: rest

/-- Python `list.sort(key=len)`: stable ascending sort by length. -/
def sortByLen (l : List Str) : List Str := l.foldl (fun acc x => insertByLen x acc) []

/-- Strategy 4 (lines 334-379): fill-in-the-blank by removing a noun phrase.
The `except` branch of the tokenization falls back to whitespace splitting
with every token tagged `NN`. -/
def strategy4 (tagger : Tagger) (s : Str) : Option (Str × Str) :=
  let tagged := match tagger s with
    | some tg => tg
    | none => (splitWs s).map (fun w => (w, "NN".toList))
  let importantTerms := collectRuns tagged
  if importantTerms.isEmpty then none
  else
    let sorted := sortByLen importantTerms
    let answerTerm := match sorted.find? (fun t =>
        decide (3 ≤ (splitWs t).length) && decide ((splitWs t).length ≤ 5)) with
      | some t => some t
      | none => sorted.getLast?
    match answerTerm with
    | none => none
    | some term =>
      if 5 < term.length && term.length < 50 then
        let question := replaceFirst s term "_____".toList
        let question := if question.length > 150 then
            (let ws := splitWs question
             if ws.length > 20 then joinSp (ws.take 20) ++ "...".toList else question)
          else question
        some (question, term)
      else none

def genericSubjects : List Str :=
  ["finance", "healthcare", "transportation", "e-commerce", "industry",
   "field", "domain"].map String.toList

/-- Strategy 5 (lines 381-398): "What does X do?" from capability patterns. -/
def strategy5 (s : Str) : Option (Str × Str) :=
  match matchPat pat5 s with
  | none => none
  | some caps =>
    let subject := pyStrip (groupStr s caps 0)
    let action := pyStrip (groupStr s caps 1)
    if genericSubjects.contains (lowerStr subject) then none
    else
      let subject := stripTrailingWord
        (["performs", "facilitates", "manages", "handles", "executes"].map String.toList)
        subject
      let action := if action.length > 80 then truncWord 80 action else action
      some ("What does ".toList ++ subject ++ " do?".toList, action)

/-- Strategy 6 (lines 400-418): "What are the components or types of X?". -/
def strategy6 (s : Str) : Option (Str × Str) :=
  match matchPat pat6 s with
  | none => none
  | some caps =>
    let subject := pyStrip (groupStr s caps 0)
    let itemsStr := pyStrip (groupStr s caps 1)
    let subject := stripTrailingWord
      (["includes", "consists", "has", "contains", "are", "is", "of"].map String.toList)
      subject
    if subject.length > 40 ||
        containsWordCI subject (["uses", "does", "performs", "enables"].map String.toList) then
      none
    else
      let itemsStr := if itemsStr.length > 80 then truncWord 80 itemsStr else itemsStr
      some ("What are the components or types of ".toList ++ subject ++ "?".toList,
        itemsStr)

/-- Strategy 7 (lines 420-432): "What is the purpose of X?". -/
def strategy7 (s : Str) : Option (Str × Str) :=
  match matchPat pat7 s with
  | none => none
  | some caps =>
    let subject := pyStrip (groupStr s caps 0)
    let purpose := pyStrip (groupStr s caps 1)
    let subject := stripTrailingWord
      (["is", "are", "used", "designed", "aims", "purpose", "role"].map String.toList)
      subject
    let purpose := if purpose.length > 80 then truncWord 80 purpose else purpose
    some ("What is the purpose of ".toList ++ subject ++ "?".toList, purpose)

/-- Strategy 8 (lines 434-449): lenient "What is X?" anywhere in the
sentence, case-sensitive. -/
def strategy8 (s : Str) : Option (Str × Str) :=
  match searchPat pat8 s with
  | none => none
  | some caps =>
    let subject := pyStrip (groupStr s caps 0)
    let definition := pyStrip (groupStr s caps 1)
    if containsWordCI subject
        (["uses", "does", "performs", "facilitates", "manages", "involves",
          "enables", "allows"].map String.toList) then none
    else
      let subject := stripTrailingWord linkWords subject
      if subject.length < 50 && definition.length > 10 then
        let definition := if definition.length > 100 then truncWord 100 definition else definition
        some ("What is ".toList ++ subject ++ "?".toList, definition)
      else none

/-- The important-word scan of strategy 9; `none` models the `IndexError`
raised by `word[0]` on an empty token (swallowed by the bare `except`). -/
def scanImportant : List (Str × Str) → Option (List Str)
  | [] => some []
  | (w, t) :: rest =>
    if startsWithTag t "NNP".toList then (scanImportant rest).map (fun l => w :: l)
    else if startsWithTag t "NN".toList then
      match w with
      | [] => none
      | c :: _ =>
        if c.isUpper && w.length > 4 then (scanImportant rest).map (fun l => w :: l)
        else scanImportant rest
    else scanImportant rest

/-- Strategy 9 (lines 451-470): "Explain: X" from the first proper-noun-like
token; any exception in the `try` block yields nothing. -/
def strategy9 (tagger : Tagger) (s : Str) : Option (Str × Str) :=
  if s.length > 30 then
    match tagger s with
    | none => none
    | some tagged =>
      match scanImportant tagged with
      | none => none
      | some importantWords =>
        match importantWords with
        | [] => none
        | key :: _ =>
          let answerText := if s.length > 120 then s.take 120 else s
          some ("Explain: ".toList ++ key, answerText)
  else none

/-- A question record: the `{'question', 'answer', 'context'}` dictionary. -/
structure QRecord where
  question : Str
  answer : Str
  context : Str
deriving DecidableEq

/-- The ordered cascade of the nine strategies: the first producing a
question/answer pair wins. -/
def strategyCascade (tagger : Tagger) (s : Str) : Option (Str × Str) :=
  match strategy1 s with
  | some qa => some qa
  | none =>
  match strategy2 s with
  | some qa => some qa
  | none =>
  match strategy3 s with
  | some qa => some qa
  | none =>
  match strategy4 tagger s with
  | some qa => some qa
  | none =>
  match strategy5 s with
  | some qa => some qa
  | none =>
  match strategy6 s with
  | some qa => some qa
  | none =>
  match strategy7 s with
  | some qa => some qa
  | none =>
  match strategy8 s with
  | some qa => some qa
  | none => strategy9 tagger s

/-- The answer post-processing of lines 476-483 (guarded by `if answer:`):
strip, drop trailing sentence punctuation, collapse whitespace, truncate to
100 characters at a word boundary with an ellipsis marker. -/
def cleanAnswer (a0 : Str) : Str :=
  if a0.isEmpty then a0
  else
    let a2 := collapseWs (pyRstrip ['.', '!', '?'] (pyStrip a0))
    if a2.length > 100 then truncWord 100 a2 else a2

/-- The question post-processing of lines 485-492. -/
def cleanQuestion (q0 : Str) : Str :=
  if q0.isEmpty then q0
  else
    let q1 := collapseWs (pyStrip q0)
    if q1.length > 200 then truncWord 200 q1 else q1

/-- `QuestionGenerator._generate_question_from_sentence` (lines 272-502). -/
def synthesize (tagger : Tagger) (sentence0 : Str) : Option QRecord :=
  let sentence := pyStrip sentence0
  if sentence.length < 20 then none
  else
    let originalSentence := sentence
    let sentence := pyRstrip ['.', '!', '?'] sentence
    match strategyCascade tagger sentence with
    | none => none
    | some qa =>
      let answer := cleanAnswer qa.2
      let question := cleanQuestion qa.1
      if !question.isEmpty && !answer.isEmpty &&
          question.length > 10 && answer.length > 5 then
        some ⟨question, answer, originalSentence.take 200⟩
      else none

/-- `QuestionGenerator._is_valid_sentence_for_question` (lines 153-182). -/
def isValidSentence (tagger : Tagger) (sentence : Str) : Bool :=
  if (pyStrip sentence).length < 20 then false
  else if !(sentence.getD 0 ' ').isUpper then false
  else if (sentence.filter (fun c => c == ',')).length > 8 then false
  else
    match tagger sentence with
    | some tagged =>
      if tagged.length < 5 then false
      else
        let hasVerb := tagged.any (fun wt => startsWithTag wt.2 "VB".toList)
        if !hasVerb && tagged.length < 10 then false else true
    | none => if (splitWs sentence).length < 5 then false else true

theorem truncWord_length (n : Nat) (s : Str) : (truncWord n s).length ≤ n + 3 := by
  unfold truncWord
  rw [List.length_append]
  have h1 : (rsplitFirst (s.take n)).length ≤ n := by
    have htake : (s.take n).length ≤ n := List.length_take_le n s
    unfold rsplitFirst
    cases h : (s.take n).reverse.indexOf? ' ' with
    | none => exact htake
    | some k =>
      rw [List.length_take]
      exact le_trans (Nat.min_le_right _ _) htake
  have h2 : ("...".toList : Str).length = 3 := rfl
  omega

theorem cleanAnswer_le (a0 : Str) : (cleanAnswer a0).length ≤ 103 := by
  unfold cleanAnswer
  dsimp only
  split
  · next h =>
    rw [List.isEmpty_iff] at h
    simp [h]
  · split
    · exact le_trans (truncWord_length 100 _) (by norm_num)
    · next h2 => omega

theorem cleanQuestion_le (q0 : Str) : (cleanQuestion q0).length ≤ 203 := by
  unfold cleanQuestion
  dsimp only
  split
  · next h =>
    rw [List.isEmpty_iff] at h
    simp [h]
  · split
    · exact le_trans (truncWord_length 200 _) (by norm_num)
    · next h2 => omega

/-- C2 amended: for every tagger behaviour and every input sentence,
`synthesize` returns either nothing or a record whose question is between 11
and 203 characters and whose answer is between 6 and 103 characters.  The
claimed hard caps of 200/100 do not hold because the word-boundary truncation
appends a three-character ellipsis *after* cutting at 200/100 characters (see
`C2_counterexample`). -/
theorem C2_synthesize_bounds (tagger : Tagger) (sentence : Str) :
    synthesize tagger sentence = none ∨
    ∃ r, synthesize tagger sentence = some r ∧
      10 < r.question.length ∧ r.question.length ≤ 203 ∧
      5 < r.answer.length ∧ r.answer.length ≤ 103 := by
  unfold synthesize
  dsimp only
  split
  · exact Or.inl rfl
  · cases hc : strategyCascade tagger (pyRstrip ['.', '!', '?'] (pyStrip sentence)) with
    | none => exact Or.inl rfl
    | some qa =>
      dsimp only
      split
      · next hg =>
        have h1 : (cleanQuestion qa.1).length > 10 ∧ (cleanAnswer qa.2).length > 5 := by
          simp only [Bool.and_eq_true, decide_eq_true_eq] at hg
          exact ⟨hg.1.2, hg.2⟩
        exact Or.inr ⟨_, rfl, h1.1, cleanQuestion_le qa.1, h1.2, cleanAnswer_le qa.2⟩
      · exact Or.inl rfl

/-- The sentence refuting C2's a-priori question bound: a 186-letter subject
followed by `" fox takes 12 weeks."`.  Strategy 3 (quantity) fires, producing
the question `"How long is <subject>?"` of length 203; post-processing cuts
the first 200 characters at the last space (index 198) and appends the
ellipsis, yielding 201 characters. -/
def cexC2Sentence : Str := List.replicate 186 'q' ++ " fox takes 12 weeks.".toList

set_option maxRecDepth 100000 in
/-- C2 counterexample: `synthesize` returns a record whose question is 201
characters long, exceeding the claimed 200-character bound. -/
theorem C2_counterexample :
    (synthesize (fun _ => none) cexC2Sentence).map (fun r => r.question.length) =
      some 201 := by decide

/-! ### `QuestionGenerator.generate_questions` (lines 504-616, claims C3, C4)

The random sampling (`random.sample`, `random.shuffle`) and the relevance
ranker are abstracted as function parameters, so every theorem below holds
for every possible random outcome and ranker result.  The second component of
the result is a ghost trace recording, in order, every sentence passed to the
synthesizer together with the pass (1, 2 or 3) that attempted it. -/

/-- The relaxed sentence filter `len(s.strip()) > 20 and s[0].isupper()` used
when too few sentences pass full validation, and again in pass 2. -/
def relaxedFilter (s : Str) : Bool :=
  (pyStrip s).length > 20 && (s.getD 0 ' ').isUpper

/-- Pass 1 (lines 543-564): iterate the candidate sentences, stop when enough
questions were collected or after more than 50 consecutive failures;
deduplicate on the lowercased question text. -/
def pass1 (synth : Str → Option QRecord) (n : Nat) :
    List Str → List QRecord → List Str → Nat → List (Nat × Str) →
    List QRecord × List Str × List (Nat × Str)
  | [], qs, seen, _, tr => (qs, seen, tr)
  | s :: rest, qs, seen, cf, tr =>
    if qs.length ≥ n then (qs, seen, tr)
    else
      match synth s with
      | some q =>
        let key := lowerStr q.question
        if seen.contains key then
          if cf + 1 > 50 then (qs, seen, tr ++ [(1, s)])
          else pass1 synth n rest qs seen (cf + 1) (tr ++ [(1, s)])
        else pass1 synth n rest (qs ++ [q]) (seen ++ [key]) 0 (tr ++ [(1, s)])
      | none =>
        if cf + 1 > 50 then (qs, seen, tr ++ [(1, s)])
        else pass1 synth n rest qs seen (cf + 1) (tr ++ [(1, s)])

/-- Pass 2 (lines 583-592): like pass 1 but with no failure counter. -/
def pass2 (synth : Str → Option QRecord) (n : Nat) :
    List Str → List QRecord → List Str → List (Nat × Str) →
    List QRecord × List Str × List (Nat × Str)
  | [], qs, seen, tr => (qs, seen, tr)
  | s :: rest, qs, seen, tr =>
    if qs.length ≥ n then (qs, seen, tr)
    else
      match synth s with
      | some q =>
        let key := lowerStr q.question
        if seen.contains key then pass2 synth n rest qs seen (tr ++ [(2, s)])
        else pass2 synth n rest (qs ++ [q]) (seen ++ [key]) (tr ++ [(2, s)])
      | none => pass2 synth n rest qs seen (tr ++ [(2, s)])

/-- Pass 3 (lines 601-614): skip sentences from the pass-1 candidate list
(`tried_sentences`), then like pass 2. -/
def pass3 (synth : Str → Option QRecord) (n : Nat) (tried : List Str) :
    List Str → List QRecord → List Str → List (Nat × Str) →
    List QRecord × List Str × List (Nat × Str)
  | [], qs, seen, tr => (qs, seen, tr)
  | s :: rest, qs, seen, tr =>
    if qs.length ≥ n then (qs, seen, tr)
    else if tried.contains s then pass3 synth n tried rest qs seen tr
    else
      match synth s with
      | some q =>
        let key := lowerStr q.question
        if seen.contains key then pass3 synth n tried rest qs seen (tr ++ [(3, s)])
        else pass3 synth n tried rest (qs ++ [q]) (seen ++ [key]) (tr ++ [(3, s)])
      | none => pass3 synth n tried rest qs seen (tr ++ [(3, s)])

/-- The candidate pool of pass 1 (lines 523-533): the ranker output for a
topic, otherwise a random sample of size `min(10n, |corpus|)` (the whole
corpus when it has at most `n` sentences). -/
def genPool (sentences : List Str) (ranker : Str → Nat → List Str)
    (sample1 : Nat → List Str → List Str) (topic : Option Str)
    (numQuestions : Nat) : List Str :=
  match topic with
  | some t => ranker t (numQuestions * 10)
  | none =>
    if sentences.length > numQuestions then
      sample1 (min (numQuestions * 10) sentences.length) sentences
    else sentences

/-- The pass-1 candidate list `valid_sentences` (lines 535-541): the fully
validated pool, relaxed to the minimal filter when fewer than `2n` pass. -/
def genCandidates (valid : Str → Bool) (pool : List Str) (numQuestions : Nat) :
    List Str :=
  let v0 := pool.filter valid
  if v0.length < numQuestions * 2 then pool.filter relaxedFilter else v0

/-- `QuestionGenerator.generate_questions` (lines 504-616), instrumented with
the attempt trace.  `synth` is `_generate_question_from_sentence`, `valid` is
`_is_valid_sentence_for_question`, `ranker` is `_find_relevant_sentences`,
`sample1`/`sample2` model `random.sample` and `shuffle3` models
`random.shuffle`. -/
def generateQuestions (synth : Str → Option QRecord) (valid : Str → Bool)
    (sentences : List Str) (ranker : Str → Nat → List Str)
    (sample1 sample2 : Nat → List Str → List Str) (shuffle3 : List Str → List Str)
    (topic : Option Str) (numQuestions : Nat) :
    List QRecord × List (Nat × Str) :=
  let pool := genPool sentences ranker sample1 topic numQuestions
  let validSentences := genCandidates valid pool numQuestions
  let r1 := pass1 synth numQuestions validSentences [] [] 0 []
  let r2 :=
    if r1.1.length < numQuestions then
      let remaining := sentences.filter (fun s => !(validSentences.contains s))
      if !remaining.isEmpty then
        let additional := sample2 (min (numQuestions * 5) remaining.length) remaining
        let additionalValid := additional.filter relaxedFilter
        pass2 synth numQuestions additionalValid r1.1 r1.2.1 r1.2.2
      else r1
    else r1
  let r3 :=
    if r2.1.length < numQuestions then
      let allRemaining := sentences.filter (fun s => (pyStrip s).length > 15)
      pass3 synth numQuestions validSentences (shuffle3 allRemaining) r2.1 r2.2.1 r2.2.2
    else r2
  (r3.1.take numQuestions, r3.2.2)

/-- The deduplication invariant threaded through the three passes: the
collected questions have pairwise distinct lowercased texts, all of them
recorded in `seen`. -/
def dedupInv (qs : List QRecord) (seen : List Str) : Prop :=
  qs.Pairwise (fun a b => lowerStr a.question ≠ lowerStr b.question) ∧
  ∀ q ∈ qs, lowerStr q.question ∈ seen

theorem dedupInv_insert (qs : List QRecord) (seen : List Str) (q : QRecord)
    (h : dedupInv qs seen)
    (hnew : ¬ seen.contains (lowerStr q.question) = true) :
    dedupInv (qs ++ [q]) (seen ++ [lowerStr q.question]) := by
  obtain ⟨hp, hm⟩ := h
  have hnotmem : lowerStr q.question ∉ seen := by simpa using hnew
  constructor
  · rw [List.pairwise_append]
    refine ⟨hp, List.pairwise_singleton _ _, ?_⟩
    intro a ha b hb
    rw [List.mem_singleton] at hb
    subst hb
    intro heq
    exact hnotmem (heq ▸ hm a ha)
  · intro x hx
    rcases List.mem_append.mp hx with h1 | h1
    · exact List.mem_append_left _ (hm x h1)
    · rw [List.mem_singleton] at h1
      subst h1
      exact List.mem_append_right _ (List.mem_singleton_self _)

theorem pass1_inv (synth : Str → Option QRecord) (n : Nat) :
    ∀ (l : List Str) qs seen cf tr, dedupInv qs seen →
      dedupInv (pass1 synth n l qs seen cf tr).1 (pass1 synth n l qs seen cf tr).2.1 := by
  intro l
  induction l with
  | nil => intro qs seen cf tr h; exact h
  | cons s rest ih =>
    intro qs seen cf tr h
    by_cases h1 : qs.length ≥ n
    · simpa [pass1, h1] using h
    · cases hs : synth s with
      | some q =>
        by_cases h2 : lowerStr q.question ∈ seen
        · by_cases h3 : cf + 1 > 50
          · simpa [pass1, h1, hs, h2, h3] using h
          · simpa [pass1, h1, hs, h2, h3] using ih qs seen (cf + 1) (tr ++ [(1, s)]) h
        · simpa [pass1, h1, hs, h2] using
            ih (qs ++ [q]) (seen ++ [lowerStr q.question]) 0 (tr ++ [(1, s)])
              (dedupInv_insert qs seen q h (by simpa using h2))
      | none =>
        by_cases h3 : cf + 1 > 50
        · simpa [pass1, h1, hs, h3] using h
        · simpa [pass1, h1, hs, h3] using ih qs seen (cf + 1) (tr ++ [(1, s)]) h

theorem pass2_inv (synth : Str → Option QRecord) (n : Nat) :
    ∀ (l : List Str) qs seen tr, dedupInv qs seen →
      dedupInv (pass2 synth n l qs seen tr).1 (pass2 synth n l qs seen tr).2.1 := by
  intro l
  induction l with
  | nil => intro qs seen tr h; exact h
  | cons s rest ih =>
    intro qs seen tr h
    by_cases h1 : qs.length ≥ n
    · simpa [pass2, h1] using h
    · cases hs : synth s with
      | some q =>
        by_cases h2 : lowerStr q.question ∈ seen
        · simpa [pass2, h1, hs, h2] using ih qs seen (tr ++ [(2, s)]) h
        · simpa [pass2, h1, hs, h2] using
            ih (qs ++ [q]) (seen ++ [lowerStr q.question]) (tr ++ [(2, s)])
              (dedupInv_insert qs seen q h (by simpa using h2))
      | none => simpa [pass2, h1, hs] using ih qs seen (tr ++ [(2, s)]) h

theorem pass3_inv (synth : Str → Option QRecord) (n : Nat) (tried : List Str) :
    ∀ (l : List Str) qs seen tr, dedupInv qs seen →
      dedupInv (pass3 synth n tried l qs seen tr).1 (pass3 synth n tried l qs seen tr).2.1 := by
  intro l
  induction l with
  | nil => intro qs seen tr h; exact h
  | cons s rest ih =>
    intro qs seen tr h
    by_cases h1 : qs.length ≥ n
    · simpa [pass3, h1] using h
    · by_cases h0 : s ∈ tried
      · simpa [pass3, h1, h0] using ih qs seen tr h
      · cases hs : synth s with
        | some q =>
          by_cases h2 : lowerStr q.question ∈ seen
          · simpa [pass3, h1, h0, hs, h2] using ih qs seen (tr ++ [(3, s)]) h
          · simpa [pass3, h1, h0, hs, h2] using
              ih (qs ++ [q]) (seen ++ [lowerStr q.question]) (tr ++ [(3, s)])
                (dedupInv_insert qs seen q h (by simpa using h2))
        | none => simpa [pass3, h1, h0, hs] using ih qs seen (tr ++ [(3, s)]) h

theorem dedupInv_ite (c : Prop) [Decidable c]
    (a b : List QRecord × List Str × List (Nat × Str))
    (ha : dedupInv a.1 a.2.1) (hb : dedupInv b.1 b.2.1) :
    dedupInv (if c then a else b).1 (if c then a else b).2.1 := by
  split
  · exact ha
  · exact hb

/-- C3: for every ranker behaviour, every random outcome, every synthesizer
and validity oracle, every topic and every requested count `n`, the generated
list has at most `n` records and no two of its records share the same
lowercased question text (the deduplication set is threaded through all three
passes). -/
theorem C3_generate_length_dedup (synth : Str → Option QRecord) (valid : Str → Bool)
    (sentences : List Str) (ranker : Str → Nat → List Str)
    (sample1 sample2 : Nat → List Str → List Str) (shuffle3 : List Str → List Str)
    (topic : Option Str) (n : Nat) :
    (generateQuestions synth valid sentences ranker sample1 sample2 shuffle3
        topic n).1.length ≤ n ∧
    (generateQuestions synth valid sentences ranker sample1 sample2 shuffle3
        topic n).1.Pairwise
      (fun a b => lowerStr a.question ≠ lowerStr b.question) := by
  have hbase : dedupInv [] [] := ⟨List.Pairwise.nil, by simp⟩
  constructor
  · unfold generateQuestions
    dsimp only
    rw [List.length_take]
    exact Nat.min_le_left _ _
  · unfold generateQuestions
    dsimp only
    apply List.Pairwise.sublist (List.take_sublist _ _)
    have h1 := pass1_inv synth n
      (genCandidates valid (genPool sentences ranker sample1 topic n) n) [] [] 0 [] hbase
    exact (dedupInv_ite _ _ _
      (pass3_inv _ _ _ _ _ _ _
        (dedupInv_ite _ _ _ (dedupInv_ite _ _ _ (pass2_inv _ _ _ _ _ _ h1) h1) h1))
      (dedupInv_ite _ _ _ (dedupInv_ite _ _ _ (pass2_inv _ _ _ _ _ _ h1) h1) h1)).1

theorem pass1_trace (synth : Str → Option QRecord) (n : Nat) :
    ∀ (l : List Str) qs seen cf tr p s,
      (p, s) ∈ (pass1 synth n l qs seen cf tr).2.2 → (p, s) ∈ tr ∨ p = 1 := by
  intro l
  induction l with
  | nil => intro qs seen cf tr p s hm; exact Or.inl hm
  | cons s0 rest ih =>
    intro qs seen cf tr p s hm
    have hstep : ∀ tr2 : List (Nat × Str), (p, s) ∈ tr2 ++ [(1, s0)] → (p, s) ∈ tr2 ∨ p = 1 := by
      intro tr2 h
      rcases List.mem_append.mp h with h | h
      · exact Or.inl h
      · rw [List.mem_singleton] at h
        exact Or.inr (congrArg Prod.fst h)
    by_cases h1 : qs.length ≥ n
    · rw [pass1] at hm
      rw [if_pos h1] at hm
      exact Or.inl hm
    · rw [pass1, if_neg h1] at hm
      cases hs : synth s0 with
      | some q =>
        rw [hs] at hm
        dsimp only at hm
        by_cases h2 : seen.contains (lowerStr q.question) = true
        · rw [if_pos h2] at hm
          by_cases h3 : cf + 1 > 50
          · rw [if_pos h3] at hm
            exact hstep tr hm
          · rw [if_neg h3] at hm
            rcases ih _ _ _ _ _ _ hm with h | h
            · exact hstep tr h
            · exact Or.inr h
        · rw [if_neg h2] at hm
          rcases ih _ _ _ _ _ _ hm with h | h
          · exact hstep tr h
          · exact Or.inr h
      | none =>
        rw [hs] at hm
        by_cases h3 : cf + 1 > 50
        · rw [if_pos h3] at hm
          exact hstep tr hm
        · rw [if_neg h3] at hm
          rcases ih _ _ _ _ _ _ hm with h | h
          · exact hstep tr h
          · exact Or.inr h

theorem pass2_trace (synth : Str → Option QRecord) (n : Nat) :
    ∀ (l : List Str) qs seen tr p s,
      (p, s) ∈ (pass2 synth n l qs seen tr).2.2 →
        (p, s) ∈ tr ∨ (p = 2 ∧ s ∈ l) := by
  intro l
  induction l with
  | nil => intro qs seen tr p s hm; exact Or.inl hm
  | cons s0 rest ih =>
    intro qs seen tr p s hm
    have hstep : ∀ tr2 : List (Nat × Str), (p, s) ∈ tr2 ++ [(2, s0)] →
        (p, s) ∈ tr2 ∨ (p = 2 ∧ s ∈ s0 :: rest) := by
      intro tr2 h
      rcases List.mem_append.mp h with h | h
      · exact Or.inl h
      · rw [List.mem_singleton] at h
        refine Or.inr ⟨congrArg Prod.fst h, ?_⟩
        rw [show s = s0 from congrArg Prod.snd h]
        exact List.mem_cons_self _ _
    have hlift : (p, s) ∈ tr ∨ (p = 2 ∧ s ∈ rest) → (p, s) ∈ tr ∨ (p = 2 ∧ s ∈ s0 :: rest) := by
      rintro (h | ⟨h2, h3⟩)
      · exact Or.inl h
      · exact Or.inr ⟨h2, List.mem_cons_of_mem _ h3⟩
    by_cases h1 : qs.length ≥ n
    · rw [pass2, if_pos h1] at hm
      exact Or.inl hm
    · rw [pass2, if_neg h1] at hm
      cases hs : synth s0 with
      | some q =>
        rw [hs] at hm
        dsimp only at hm
        by_cases h2 : seen.contains (lowerStr q.question) = true
        · rw [if_pos h2] at hm
          rcases ih _ _ _ _ _ hm with h | h
          · exact hstep tr h
          · exact hlift (Or.inr h)
        · rw [if_neg h2] at hm
          rcases ih _ _ _ _ _ hm with h | h
          · exact hstep tr h
          · exact hlift (Or.inr h)
      | none =>
        rw [hs] at hm
        rcases ih _ _ _ _ _ hm with h | h
        · exact hstep tr h
        · exact hlift (Or.inr h)

theorem pass3_trace (synth : Str → Option QRecord) (n : Nat) (tried : List Str) :
    ∀ (l : List Str) qs seen tr p s,
      (p, s) ∈ (pass3 synth n tried l qs seen tr).2.2 →
        (p, s) ∈ tr ∨ (p = 3 ∧ tried.contains s = false) := by
  intro l
  induction l with
  | nil => intro qs seen tr p s hm; exact Or.inl hm
  | cons s0 rest ih =>
    intro qs seen tr p s hm
    by_cases h1 : qs.length ≥ n
    · rw [pass3, if_pos h1] at hm
      exact Or.inl hm
    · by_cases h0 : tried.contains s0 = true
      · rw [pass3, if_neg h1, if_pos h0] at hm
        exact ih _ _ _ _ _ hm
      · have hstep : ∀ tr2 : List (Nat × Str), (p, s) ∈ tr2 ++ [(3, s0)] →
            (p, s) ∈ tr2 ∨ (p = 3 ∧ tried.contains s = false) := by
          intro tr2 h
          rcases List.mem_append.mp h with h | h
          · exact Or.inl h
          · rw [List.mem_singleton] at h
            refine Or.inr ⟨congrArg Prod.fst h, ?_⟩
            rw [show s = s0 from congrArg Prod.snd h]
            exact Bool.not_eq_true _ ▸ (by simpa using h0)
        rw [pass3, if_neg h1, if_neg h0] at hm
        cases hs : synth s0 with
        | some q =>
          rw [hs] at hm
          dsimp only at hm
          by_cases h2 : seen.contains (lowerStr q.question) = true
          · rw [if_pos h2] at hm
            rcases ih _ _ _ _ _ hm with h | h
            · exact hstep tr h
            · exact Or.inr h
          · rw [if_neg h2] at hm
            rcases ih _ _ _ _ _ hm with h | h
            · exact hstep tr h
            · exact Or.inr h
        | none =>
          rw [hs] at hm
          rcases ih _ _ _ _ _ hm with h | h
          · exact hstep tr h
          · exact Or.inr h

/-- C4 amended: no sentence from the pass-1 candidate list
(`valid_sentences`, the only contents of `tried_sentences`) is ever attempted
again by pass 2 or pass 3, for any random outcome in which `random.sample`
returns elements of its input.  (A sentence outside that list *can* be
attempted by both pass 2 and pass 3, see `C4_counterexample`.) -/
theorem C4_no_candidate_retried (synth : Str → Option QRecord) (valid : Str → Bool)
    (sentences : List Str) (ranker : Str → Nat → List Str)
    (sample1 sample2 : Nat → List Str → List Str) (shuffle3 : List Str → List Str)
    (topic : Option Str) (n : Nat)
    (hs2 : ∀ k l s, s ∈ sample2 k l → s ∈ l) :
    ∀ p s, (p, s) ∈ (generateQuestions synth valid sentences ranker sample1 sample2
        shuffle3 topic n).2 → 2 ≤ p →
      s ∉ genCandidates valid (genPool sentences ranker sample1 topic n) n := by
  intro p s hmem hp
  unfold generateQuestions at hmem
  dsimp only at hmem
  split at hmem
  · split at hmem
    · split at hmem
      · rcases pass3_trace _ _ _ _ _ _ _ _ _ hmem with hm2 | ⟨_, hcontains⟩
        · rcases pass2_trace _ _ _ _ _ _ _ _ hm2 with hm1 | ⟨_, hmemAV⟩
          · rcases pass1_trace _ _ _ _ _ _ _ _ _ hm1 with habs | hp1
            · simp at habs
            · omega
          · have h5 := hs2 _ _ _ (List.mem_of_mem_filter hmemAV)
            simpa using List.of_mem_filter h5
        · simpa using hcontains
      · rcases pass2_trace _ _ _ _ _ _ _ _ hmem with hm1 | ⟨_, hmemAV⟩
        · rcases pass1_trace _ _ _ _ _ _ _ _ _ hm1 with habs | hp1
          · simp at habs
          · omega
        · have h5 := hs2 _ _ _ (List.mem_of_mem_filter hmemAV)
          simpa using List.of_mem_filter h5
    · rcases pass3_trace _ _ _ _ _ _ _ _ _ hmem with hm2 | ⟨_, hcontains⟩
      · rcases pass1_trace _ _ _ _ _ _ _ _ _ hm2 with habs | hp1
        · simp at habs
        · omega
      · simpa using hcontains
  · rcases pass1_trace _ _ _ _ _ _ _ _ _ hmem with habs | hp1
    · simp at habs
    · omega

def c4s1 : Str := "Zebra flamingo telescope mountain river pebble dances.".toList

def c4s2 : Str := "Quiet violet meadow breeze drifts across purple stones.".toList

def c4s3 : Str := "Unquestionably extraordinary hippopotamus choreography.".toList

set_option maxRecDepth 100000 in
/-- C4 counterexample: with a three-sentence corpus, no topic, `n = 1`, a
failing tagger, and legitimate `random.sample`/`random.shuffle` outcomes, the
third sentence (ineligible for pass 1, so absent from `tried_sentences`) is
passed to the synthesizer by pass 2 *and again* by pass 3: the list of
attempted sentences has a duplicate, refuting "each sentence is attempted at
most once across all passes". -/
theorem C4_counterexample :
    ¬ (((generateQuestions (synthesize (fun _ => none)) (isValidSentence (fun _ => none))
          [c4s1, c4s2, c4s3] (fun _ _ => []) (fun k l => l.take k) (fun k l => l.take k)
          id none 1).2).map Prod.snd).Nodup := by decide

/-- Witness for the amended C4 in the counterexample scenario: the re-attempted
sentence is not a pass-1 candidate. -/
theorem C4_witness :
    c4s3 ∉ genCandidates (isValidSentence (fun _ => none))
      (genPool [c4s1, c4s2, c4s3] (fun _ _ => []) (fun k l => l.take k) none 1) 1 :=
  C4_no_candidate_retried (synthesize (fun _ => none)) (isValidSentence (fun _ => none))
    [c4s1, c4s2, c4s3] (fun _ _ => []) (fun k l => l.take k) (fun k l => l.take k)
    id none 1 (fun k l s hs => List.take_subset k l hs) 2 c4s3 (by decide) (by decide)

/-- Witness for the amended C5 at a concrete failing query. -/
theorem C5_witness :
    findRelevantSentences (fun (_ : Unit) _ => Except.error "boom")
      (fun _ => []) (some ())
      ["Agile is iterative".toList] "agile".toList 3 =
      Except.ok (keywordFallback ["Agile is iterative".toList] "agile".toList 3) :=
  (C5_query_failure_falls_back (fun (_ : Unit) _ => Except.error "boom")
    (fun _ => []) (some ())
    ["Agile is iterative".toList] "agile".toList 3).2 () "boom" rfl rfl

end QuizMD
